import Mathlib

/-!
Shallow embedding of the `logger` Go package (Humi-HR/go-structured-logger):
`entry.go` (the Entry record and `WithContext`) and `logger.go` (the Logger
buffer, `Log` and its four level methods, `buildEntry`, `WithRequest`,
`DecorateEntries`, `Flush`, `isJSON`, `NewLogger`, `Middleware`).

Modelling decisions, stated once:
  * `time.Time` instants are `Int` epoch milliseconds; `time.Since` becomes
    integer subtraction, so `Delta` (Go `int(delta.Milliseconds())`) is the
    difference of the two instants.
  * `time.Format(time.RFC3339)` is rendered by `formatRFC3339`, a function of
    the instant alone; no claim depends on the textual shape it produces.
  * `io.Writer` is only observed as nil vs non-nil by this package, so the
    `writer` field is `Option Unit`; the bytes written by `fmt.Fprintln` are
    collected as an explicit list of output lines, one per call.
  * `json.Marshal` is the external encoder, a fallible capability; `Flush`
    takes it as an `encode : Entry → Option String` argument, `none` being a
    marshalling error.
  * `uuid.New().String()` and `time.Now()` are external effects; the values
    they return are passed as explicit arguments (`traceID`, `now`).
-/

namespace StructuredLogger

/-- Is `c` one of the JSON insignificant-whitespace characters
(space, tab, newline, carriage return)? -/
def isWSChar (c : Char) : Bool :=
  c = ' ' || c = '\t' || c = '\n' || c = '\r'

/-- Drop leading JSON whitespace. -/
def skipWS : List Char → List Char
  | [] => []
  | c :: cs => if isWSChar c then skipWS cs else c :: cs

/-- Hexadecimal digit test, used for the four digits of a `\u` escape. -/
def isHexDigit (c : Char) : Bool :=
  c.isDigit || ('a' ≤ c && c ≤ 'f') || ('A' ≤ c && c ≤ 'F')

/-- Scan the remainder of a JSON string literal (the opening quote already
consumed): plain characters must not be control characters, a backslash must
start a legal escape, and the scan succeeds at the closing quote, returning
the unconsumed input. -/
def parseStringRest : List Char → Option (List Char)
  | [] => none
  | '"' :: rest => some rest
  | '\\' :: 'u' :: a :: b :: c :: d :: rest =>
    if isHexDigit a && isHexDigit b && isHexDigit c && isHexDigit d then
      parseStringRest rest
    else none
  | '\\' :: e :: rest =>
    if e = '"' || e = '\\' || e = '/' || e = 'b' || e = 'f' || e = 'n' ||
        e = 'r' || e = 't' then
      parseStringRest rest
    else none
  | c :: rest => if c.toNat < 32 then none else parseStringRest rest

/-- Drop leading decimal digits. -/
def skipDigits : List Char → List Char
  | [] => []
  | c :: cs => if c.isDigit then skipDigits cs else c :: cs

/-- Require at least one decimal digit, then drop the rest of the digit run. -/
def parseDigits1 : List Char → Option (List Char)
  | [] => none
  | c :: cs => if c.isDigit then some (skipDigits cs) else none

/-- Integer part of a JSON number: a lone `0`, or a nonzero digit followed by
any digit run (so `01` leaves the second digit as trailing input). -/
def parseIntPart : List Char → Option (List Char)
  | '0' :: cs => some cs
  | c :: cs => if c.isDigit then some (skipDigits cs) else none
  | [] => none

/-- Optional fraction part of a JSON number: `.` followed by one or more
digits, or nothing. -/
def parseFracPart (s : List Char) : Option (List Char) :=
  match s with
  | '.' :: cs => parseDigits1 cs
  | _ => some s

/-- Optional exponent part of a JSON number: `e`/`E`, an optional sign, and
one or more digits, or nothing. -/
def parseExpPart (s : List Char) : Option (List Char) :=
  match s with
  | c :: cs =>
    if c = 'e' || c = 'E' then
      match cs with
      | d :: cs2 => if d = '+' || d = '-' then parseDigits1 cs2 else parseDigits1 cs
      | [] => none
    else some s
  | [] => some s

/-- A complete JSON number: optional minus, integer part, optional fraction,
optional exponent. -/
def parseNumber (s : List Char) : Option (List Char) :=
  let s1 := match s with
    | '-' :: cs => cs
    | _ => s
  (parseIntPart s1).bind fun s2 => (parseFracPart s2).bind parseExpPart

mutual

/-- One JSON value (object, array, string, number, `true`, `false`, `null`),
leading whitespace allowed, returning the unconsumed input. The `fuel`
argument bounds the nesting recursion; every recursive call is made strictly
after consuming input, so `length + 1` fuel always suffices. -/
def parseValue : Nat → List Char → Option (List Char)
  | 0, _ => none
  | fuel + 1, s =>
    match skipWS s with
    | 't' :: 'r' :: 'u' :: 'e' :: rest => some rest
    | 'f' :: 'a' :: 'l' :: 's' :: 'e' :: rest => some rest
    | 'n' :: 'u' :: 'l' :: 'l' :: rest => some rest
    | '"' :: rest => parseStringRest rest
    | '{' :: rest => parseMembers fuel (skipWS rest) true
    | '[' :: rest => parseElements fuel (skipWS rest) true
    | c :: rest => if c = '-' || c.isDigit then parseNumber (c :: rest) else none
    | [] => none

/-- Members of a JSON object after the opening brace (whitespace already
skipped): either the closing brace when no member has been demanded, or a
`"key" : value` pair followed by a comma (demanding another member) or the
closing brace. -/
def parseMembers : Nat → List Char → Bool → Option (List Char)
  | 0, _, _ => none
  | fuel + 1, s, first =>
    match s with
    | '}' :: rest => if first then some rest else none
    | '"' :: rest =>
      (parseStringRest rest).bind fun s1 =>
        match skipWS s1 with
        | ':' :: s2 =>
          (parseValue fuel s2).bind fun s3 =>
            match skipWS s3 with
            | ',' :: s4 => parseMembers fuel (skipWS s4) false
            | '}' :: s4 => some s4
            | _ => none
        | _ => none
    | _ => none

/-- Elements of a JSON array after the opening bracket (whitespace already
skipped): either the closing bracket when no element has been demanded, or a
value followed by a comma (demanding another element) or the closing
bracket. -/
def parseElements : Nat → List Char → Bool → Option (List Char)
  | 0, _, _ => none
  | fuel + 1, s, first =>
    match s with
    | ']' :: rest => if first then some rest else none
    | s =>
      (parseValue fuel s).bind fun s1 =>
        match skipWS s1 with
        | ',' :: s2 => parseElements fuel (skipWS s2) false
        | ']' :: s2 => some s2
        | _ => none

end

/-- From `logger.go`: `isJSON(str)` is `json.Unmarshal([]byte(str), &js) == nil`
for a `json.RawMessage` target. `json.Unmarshal` is the external JSON
capability; it accepts exactly the inputs that are one complete well-formed
JSON value surrounded by optional whitespace, which is what the grammar
checker above decides. -/
def isJSON (str : String) : Bool :=
  match parseValue (str.length + 1) str.data with
  | some rest => skipWS rest = []
  | none => false

example : isJSON "{}" = true := by decide
example : isJSON "" = false := by decide
example : isJSON "[0, [true], \x7b\x7d]" = true := by decide
example : isJSON "{whoops}" = false := by decide
example : isJSON "null" = true := by decide
example : isJSON "-12.5e3" = true := by decide
example : isJSON "01" = false := by decide
example : isJSON " \"a b\" " = true := by decide

/-- The `level` type of `logger.go`: `type level int64`. -/
abbrev level : Type := Int

/-- `Debug level = iota` — the first level constant. -/
def Debug : level := 0

/-- `Info` — the second level constant. -/
def Info : level := 1

/-- `Warn` — the third level constant. -/
def Warn : level := 2

/-- `Error` — the fourth level constant. -/
def Error : level := 3

/-- `func (s level) String() string`: the switch over the four constants,
falling through to `"unknown"`. -/
def level.String (s : level) : String :=
  if s = Debug then "debug"
  else if s = Info then "info"
  else if s = Warn then "warn"
  else if s = Error then "error"
  else "unknown"

/-- The observable part of the bound `*http.Request`. `xTraceID` is the value
of `request.Header.Get("x-trace-id")` (the empty string when the header is
absent); the other fields are the request attributes `buildEntry` reads:
`RemoteAddr`, `Method`, `URL.RawQuery`, and `Host` and `URL.Path`. -/
structure Request where
  xTraceID : String
  remoteAddr : String
  method : String
  rawQuery : String
  host : String
  path : String
deriving DecidableEq

/-- The `Entry` struct of `entry.go`/`logger.go`; every field is a Go `string`
except the Go `int` fields `Delta` and `StatusCode`. The Go field `Type` is
named `TypeTag` here because `Type` is reserved in Lean; defaults are the Go
zero values. -/
structure Entry where
  Args : String := ""
  CauserID : String := ""
  CauserType : String := ""
  ContextAsString : String := ""
  DataId : String := ""
  DataType : String := ""
  Datetime : String := ""
  Delta : Int := 0
  Env : String := ""
  Impersonator : String := ""
  Level : String := ""
  Message : String := ""
  ProcessContext : String := ""
  ProcessStart : String := ""
  RemoteAddress : String := ""
  RequestMethod : String := ""
  RequestQuery : String := ""
  RequestURL : String := ""
  Service : String := ""
  StatusCode : Int := 0
  TraceID : String := ""
  TypeTag : String := ""
deriving DecidableEq

/-- The `Logger` struct of `logger.go`. `startTime` is the `time.Time` field
as epoch milliseconds and `writer` the `io.Writer` field reduced to its
nil-test (see the header comment). -/
structure Logger where
  Entries : List Entry
  env : String
  request : Option Request
  startTime : Int
  traceID : String
  writer : Option Unit
  service : String
deriving DecidableEq

/-- The `Config` struct of `logger.go`. -/
structure Config where
  Writer : Option Unit
  Env : String
  Service : String
deriving DecidableEq

/-- Models `strings.Join(os.Args, " ")`: the process-wide invocation string,
constant for the life of the process. Its concrete value is irrelevant to
every claim, so the model fixes an arbitrary one. -/
def osArgsJoined : String := ""

/-- Models `time.Time.Format(time.RFC3339)` as a function of the instant; the
textual shape is irrelevant to every claim, only that it is a function of the
instant. -/
def formatRFC3339 (t : Int) : String := toString t

/-- `func (l *Logger) buildEntry(lvl level, msg string) *Entry` from
`logger.go`: snapshot of the Logger's state plus the current instant `now`
(the `time.Now()` read). `delta` is `time.Since(l.startTime)` in
milliseconds. -/
def Logger.buildEntry (l : Logger) (now : Int) (lvl : level) (msg : String) : Entry :=
  let startTime := formatRFC3339 l.startTime
  let nowStr := formatRFC3339 now
  let delta : Int := now - l.startTime
  let remoteAddress := match l.request with
    | some r => r.remoteAddr
    | none => ""
  let requestMethod := match l.request with
    | some r => r.method
    | none => ""
  let requestQuery := match l.request with
    | some r => r.rawQuery
    | none => ""
  let requestURL := match l.request with
    | some r => r.host ++ r.path
    | none => ""
  { Args := osArgsJoined
    Datetime := nowStr
    Delta := delta
    Env := l.env
    Level := level.String lvl
    Message := msg
    ProcessContext := "request"
    ProcessStart := startTime
    RemoteAddress := remoteAddress
    RequestMethod := requestMethod
    RequestQuery := requestQuery
    RequestURL := requestURL
    Service := l.service
    TraceID := l.traceID
    TypeTag := "general" }

/-- `func (l *Logger) Log(lvl level, msg string) *Entry`: build the entry,
append it to the buffer, and return it (here: the updated Logger paired with
the returned entry). -/
def Logger.Log (l : Logger) (now : Int) (lvl : level) (msg : String) : Logger × Entry :=
  let entry := l.buildEntry now lvl msg
  ({ l with Entries := l.Entries ++ [entry] }, entry)

/-- `func (l *Logger) Debug(msg string) *Entry := l.Log(Debug, msg)`. -/
def Logger.Debug (l : Logger) (now : Int) (msg : String) : Logger × Entry :=
  l.Log now StructuredLogger.Debug msg

/-- `func (l *Logger) Info(msg string) *Entry := l.Log(Info, msg)`. -/
def Logger.Info (l : Logger) (now : Int) (msg : String) : Logger × Entry :=
  l.Log now StructuredLogger.Info msg

/-- `func (l *Logger) Warn(msg string) *Entry := l.Log(Warn, msg)`. -/
def Logger.Warn (l : Logger) (now : Int) (msg : String) : Logger × Entry :=
  l.Log now StructuredLogger.Warn msg

/-- `func (l *Logger) Error(msg string) *Entry := l.Log(Error, msg)`. -/
def Logger.Error (l : Logger) (now : Int) (msg : String) : Logger × Entry :=
  l.Log now StructuredLogger.Error msg

/-- `func (e *Entry) WithContext(context string) *Entry` from `entry.go`:
replace a non-JSON argument by `"\x7b\x7d"`, store it, return the entry. -/
def Entry.WithContext (e : Entry) (context : String) : Entry :=
  let context := if !(isJSON context) then "{}" else context
  { e with ContextAsString := context }

/-- `func (l *Logger) WithRequest(request *http.Request) *Logger` from
`logger.go`: nil request is a no-op; otherwise store the request and, when the
`x-trace-id` header value is non-empty, overwrite the trace id with it. -/
def Logger.WithRequest (l : Logger) (request : Option Request) : Logger :=
  match request with
  | none => l
  | some req =>
    let l1 := { l with request := some req }
    if req.xTraceID ≠ "" then { l1 with traceID := req.xTraceID } else l1

/-- `func (l *Logger) DecorateEntries(decorators ...func(*Entry) *Entry)` from
`logger.go`: for each buffered entry (by index), apply the decorators in
order, each receiving the previous one's result. -/
def Logger.DecorateEntries (l : Logger) (decorators : List (Entry → Entry)) : Logger :=
  { l with Entries := l.Entries.map (fun e => decorators.foldl (fun acc d => d acc) e) }

/-- `func (l *Logger) Flush()` from `logger.go`: with a nil writer, just reset
the buffer; otherwise loop over the buffer, `json.Marshal` each entry
(`encode`), and `fmt.Fprintln` the encoding when marshalling succeeded, then
reset the buffer. The second component collects the printed lines in order. -/
def Logger.Flush (l : Logger) (encode : Entry → Option String) : Logger × List String :=
  match l.writer with
  | none => ({ l with Entries := [] }, [])
  | some _ =>
    let lines := l.Entries.foldl
      (fun out e =>
        match encode e with
        | some data => out ++ [data]
        | none => out)
      []
    ({ l with Entries := [] }, lines)

/-- `func NewLogger(cfg Config) *Logger` from `logger.go`: empty buffer, the
config's env/service/writer, `startTime := time.Now()` (the `now` argument),
and `traceID := uuid.New().String()` (the `traceID` argument, the external
generator's output). -/
def NewLogger (cfg : Config) (traceID : String) (now : Int) : Logger :=
  { Entries := []
    env := cfg.Env
    request := none
    startTime := now
    traceID := traceID
    writer := cfg.Writer
    service := cfg.Service }

/-- How the wrapped handler's `ServeHTTP` call ends: a normal return, or a
panic (or other abnormal unwinding) escaping it. -/
inductive HandlerExit where
  | normal : HandlerExit
  | panicked : HandlerExit
deriving DecidableEq

/-- The observable outcome of running the wrapped handler on the per-request
Logger: the Logger state when the handler is done appending (handlers reach
the Logger through the request context), the status recorded by the wrapped
response writer (`wrappedResponseWriter.Status()`), and how the call ended. -/
structure HandlerRun where
  logger : Logger
  status : Int
  exit : HandlerExit

/-- The Logger state at the moment the deferred `Flush` of `Middleware`
(`logger.go`) runs, for one request. `Middleware` builds
`NewLogger(cfg).WithRequest(r)`, defers `Flush`, and calls
`next.ServeHTTP`; the `DecorateEntries` call that stamps
`wrappedResponseWriter.Status()` onto every buffered entry is the statement
after `next.ServeHTTP`, so it runs only when the handler returned normally —
when the handler panics, the deferred `Flush` still runs during unwinding,
but the decoration statement is skipped. -/
def middlewareFinal (cfg : Config) (traceID : String) (now : Int)
    (r : Option Request) (handler : Logger → HandlerRun) : Logger :=
  let logger := (NewLogger cfg traceID now).WithRequest r
  let run := handler logger
  match run.exit with
  | .normal =>
    run.logger.DecorateEntries [fun entry => { entry with StatusCode := run.status }]
  | .panicked => run.logger

/-- One full pass of the `Middleware` handler for one request: the Logger
state at flush time (`middlewareFinal`), flushed with the external encoder.
Returns the Logger left behind and the lines written to the sink. -/
def middlewareRun (cfg : Config) (traceID : String) (now : Int)
    (r : Option Request) (handler : Logger → HandlerRun)
    (encode : Entry → Option String) : Logger × List String :=
  (middlewareFinal cfg traceID now r handler).Flush encode

/-- A batch of level-method calls against one Logger: each element carries the
`time.Now()` instant observed by that call, the level, and the message; the
calls are played left to right through `Logger.Log`. -/
def runLogs (l : Logger) (calls : List (Int × level × String)) : Logger :=
  calls.foldl (fun acc c => (acc.Log c.1 c.2.1 c.2.2).1) l

/-- `buildEntry` reads every Logger field except the buffer, so changing only
the buffer does not change the entry it builds. -/
theorem buildEntry_entries_irrel (l : Logger) (E : List Entry) (now : Int)
    (lvl : level) (msg : String) :
    Logger.buildEntry { l with Entries := E } now lvl msg = l.buildEntry now lvl msg := rfl

/-- Closed form of `runLogs`: a batch of calls only appends, in call order,
the entries built from the Logger's (unchanged) configuration. -/
theorem runLogs_closed_form (calls : List (Int × level × String)) (l : Logger) :
    runLogs l calls =
      { l with Entries := l.Entries ++ calls.map (fun c => l.buildEntry c.1 c.2.1 c.2.2) } := by
  induction calls generalizing l with
  | nil => simp [runLogs]
  | cons c cs ih =>
    have step : runLogs l (c :: cs) = runLogs ((l.Log c.1 c.2.1 c.2.2).1) cs := rfl
    rw [step, ih]
    simp [Logger.Log]
    intro a b s _
    exact rfl

/-- The emission loop of `Flush` produces exactly the successful encodings, in
order, appended to the accumulator. -/
theorem flush_loop_filterMap (encode : Entry → Option String) (entries : List Entry)
    (acc : List String) :
    entries.foldl
        (fun out e =>
          match encode e with
          | some data => out ++ [data]
          | none => out)
        acc = acc ++ entries.filterMap encode := by
  induction entries generalizing acc with
  | nil => simp
  | cons e es ih =>
    cases h : encode e with
    | none => simp [List.foldl_cons, h, ih, List.filterMap_cons]
    | some data => simp [List.foldl_cons, h, ih, List.filterMap_cons]

/-- Concrete configuration used by the concrete-instance theorems. -/
def cfgEx : Config :=
  { Writer := some (), Env := "some-env", Service := "some-service" }

/-- Concrete Logger (fresh from `NewLogger`, creation instant 5). -/
def loggerEx : Logger := NewLogger cfgEx "tid-1" 5

/-- Concrete request carrying a non-empty `x-trace-id` header. -/
def reqTraceEx : Request :=
  { xTraceID := "my-trace", remoteAddr := "10.0.0.1", method := "GET",
    rawQuery := "q=1", host := "my.app", path := "/some-path" }

/-- Concrete request whose `x-trace-id` header is absent (`Header.Get` gives
the empty string). -/
def reqNoTraceEx : Request :=
  { xTraceID := "", remoteAddr := "10.0.0.2", method := "POST",
    rawQuery := "", host := "my.app", path := "/other" }

/-- C2: `WithContext` stores its argument verbatim when it is well-formed
JSON and the literal `"\x7b\x7d"` otherwise, changing no other field and
returning the (updated) entry rather than an error; the empty string is not
well-formed JSON and the two-character object literal is. -/
theorem withContext_stores_valid_json_else_empty_object (e : Entry) (s : String) :
    e.WithContext s = { e with ContextAsString := if isJSON s then s else "{}" }
    ∧ isJSON "" = false ∧ isJSON "{}" = true := by
  refine ⟨?_, by decide, by decide⟩
  cases h : isJSON s <;> simp [Entry.WithContext, h]

/-- C3: `WithRequest` with a nil request leaves the Logger untouched; with a
request whose `x-trace-id` header value is non-empty it stores the request
and overwrites the trace id with that value; with a request whose header is
empty it stores the request and keeps the trace id; the (updated) Logger is
what it returns. -/
theorem withRequest_binding_and_trace (l : Logger) (req : Request) :
    l.WithRequest none = l
    ∧ (req.xTraceID ≠ "" →
        l.WithRequest (some req) = { l with request := some req, traceID := req.xTraceID })
    ∧ (req.xTraceID = "" →
        l.WithRequest (some req) = { l with request := some req }) := by
  refine ⟨rfl, ?_, ?_⟩
  · intro h
    simp [Logger.WithRequest, h]
  · intro h
    simp [Logger.WithRequest, h]

theorem withRequest_binding_and_trace_witness :
    loggerEx.WithRequest (some reqTraceEx)
      = { loggerEx with request := some reqTraceEx, traceID := "my-trace" }
    ∧ loggerEx.WithRequest (some reqNoTraceEx)
      = { loggerEx with request := some reqNoTraceEx } :=
  ⟨(withRequest_binding_and_trace loggerEx reqTraceEx).2.1 (by decide),
   (withRequest_binding_and_trace loggerEx reqNoTraceEx).2.2 rfl⟩

/-- C7: `Log` appends exactly the one entry it builds at the end of the
buffer, leaves the previously buffered entries and every other Logger field
unchanged, and returns that entry; each of the four level methods is `Log` at
its level constant. -/
theorem log_appends_one_entry (l : Logger) (now : Int) (lvl : level) (msg : String) :
    (l.Log now lvl msg).1.Entries = l.Entries ++ [(l.Log now lvl msg).2]
    ∧ (l.Log now lvl msg).2 = l.buildEntry now lvl msg
    ∧ (l.Log now lvl msg).1 = { l with Entries := l.Entries ++ [l.buildEntry now lvl msg] }
    ∧ l.Debug now msg = l.Log now Debug msg
    ∧ l.Info now msg = l.Log now Info msg
    ∧ l.Warn now msg = l.Log now Warn msg
    ∧ l.Error now msg = l.Log now Error msg :=
  ⟨rfl, rfl, rfl, rfl, rfl, rfl, rfl⟩

/-- C6: `DecorateEntries` replaces every buffered entry by the left-to-right
fold of the decorators over it (each decorator sees the previous ones'
effects), and an entry appended afterwards is exactly `buildEntry` of the
undecorated Logger configuration — no decorator touches it, so every field
keeps its pre-decoration value. -/
theorem decorateEntries_folds_and_spares_later (l : Logger) (ds : List (Entry → Entry))
    (now : Int) (lvl : level) (msg : String) :
    (l.DecorateEntries ds).Entries
      = l.Entries.map (fun e => ds.foldl (fun acc d => d acc) e)
    ∧ ((l.DecorateEntries ds).Log now lvl msg).1.Entries
      = (l.DecorateEntries ds).Entries ++ [l.buildEntry now lvl msg]
    ∧ ((l.DecorateEntries ds).Log now lvl msg).2 = l.buildEntry now lvl msg :=
  ⟨rfl, rfl, rfl⟩

/-- C8: with a nil sink, `Flush` emits no lines at all but still empties the
buffer, and no error is involved (the function has no failure outcome). -/
theorem flush_nil_sink_discards (l : Logger) (encode : Entry → Option String)
    (hw : l.writer = none) :
    l.Flush encode = ({ l with Entries := [] }, []) := by
  simp [Logger.Flush, hw]

/-- Concrete nil-sink Logger holding one buffered entry. -/
def nilSinkLoggerEx : Logger :=
  { NewLogger { Writer := none, Env := "e", Service := "s" } "tid-2" 0 with
    Entries := [{ Message := "m" }] }

theorem flush_nil_sink_discards_witness :
    nilSinkLoggerEx.Flush (fun e => some e.Message)
      = ({ nilSinkLoggerEx with Entries := [] }, []) :=
  flush_nil_sink_discards nilSinkLoggerEx (fun e => some e.Message) rfl

/-- C10: for any level value other than the four constants, `level.String`
returns `"unknown"`, and `Log` at such a level still produces an entry, whose
`Level` field is `"unknown"`. -/
theorem unknown_level_string (lv : level) (h0 : lv ≠ Debug) (h1 : lv ≠ Info)
    (h2 : lv ≠ Warn) (h3 : lv ≠ Error) :
    level.String lv = "unknown"
    ∧ ∀ (l : Logger) (now : Int) (msg : String),
        ((l.Log now lv msg).2).Level = "unknown" := by
  have hs : level.String lv = "unknown" := by
    simp [level.String, h0, h1, h2, h3]
  refine ⟨hs, ?_⟩
  intro l now msg
  exact hs

theorem unknown_level_string_witness :
    level.String 7 = "unknown" ∧ ((loggerEx.Log 6 7 "m").2).Level = "unknown" :=
  have h := unknown_level_string 7 (by decide) (by decide) (by decide) (by decide)
  ⟨h.1, h.2 loggerEx 6 "m"⟩

/-- C1: with a non-nil sink, `Flush` prints exactly the successful encodings
of the buffered entries, one line per entry, in buffer order; an entry whose
encoding fails is dropped without disturbing the emission of the entries
around it; the buffer is empty afterwards, and a second `Flush` prints
nothing (and, having no failure outcome, cannot error). -/
theorem flush_emits_buffer_then_clears (l : Logger) (encode : Entry → Option String)
    (hw : l.writer ≠ none) :
    (l.Flush encode).2 = l.Entries.filterMap encode
    ∧ (l.Flush encode).1 = { l with Entries := [] }
    ∧ ((l.Flush encode).1.Flush encode).2 = []
    ∧ (∀ xs e ys, l.Entries = xs ++ e :: ys → encode e = none →
        (l.Flush encode).2 = xs.filterMap encode ++ ys.filterMap encode) := by
  obtain ⟨u, hu⟩ : ∃ u, l.writer = some u := by
    cases h : l.writer with
    | none => exact absurd h hw
    | some u => exact ⟨u, rfl⟩
  refine ⟨?_, ?_, ?_, ?_⟩
  · simp [Logger.Flush, hu, flush_loop_filterMap]
  · simp [Logger.Flush, hu]
  · simp [Logger.Flush, hu]
  · intro xs e ys hsplit henc
    simp [Logger.Flush, hu, flush_loop_filterMap, hsplit, List.filterMap_append,
      List.filterMap_cons, henc]

/-- Encoder for the concrete flush instance: fails on the entry whose message
is `"bad"`, succeeds with the message elsewhere. -/
def encodeEx : Entry → Option String :=
  fun e => if e.Message = "bad" then none else some e.Message

/-- Concrete Logger with a sink and three buffered entries, the middle one
doomed to fail encoding under `encodeEx`. -/
def flushLoggerEx : Logger :=
  { NewLogger cfgEx "tid-3" 0 with
    Entries := [{ Message := "one" }, { Message := "bad" }, { Message := "two" }] }

theorem flush_emits_buffer_then_clears_witness :
    (flushLoggerEx.Flush encodeEx).2 = ["one", "two"]
    ∧ (flushLoggerEx.Flush encodeEx).1.Entries = []
    ∧ ((flushLoggerEx.Flush encodeEx).1.Flush encodeEx).2 = [] := by
  have h := flush_emits_buffer_then_clears flushLoggerEx encodeEx (by decide)
  refine ⟨?_, ?_, h.2.2.1⟩
  · rw [h.1]
    decide
  · rw [h.2.1]

/-- C4: starting from an empty buffer (the state right after a `Flush` or
fresh construction), every entry a batch of calls appends carries the
Logger's trace id and the RFC3339 rendering of its creation instant — all of
them identical. -/
theorem entries_share_traceID_and_processStart (l : Logger)
    (calls : List (Int × level × String)) (hempty : l.Entries = []) :
    ∀ e ∈ (runLogs l calls).Entries,
      e.TraceID = l.traceID ∧ e.ProcessStart = formatRFC3339 l.startTime := by
  intro e he
  rw [runLogs_closed_form, hempty] at he
  rw [List.nil_append, List.mem_map] at he
  obtain ⟨c, -, rfl⟩ := he
  exact ⟨rfl, rfl⟩

/-- The first entry built in the concrete two-call batch below. -/
def entryBuiltEx : Entry := loggerEx.buildEntry 6 Info "a"

theorem entries_share_traceID_and_processStart_witness :
    entryBuiltEx.TraceID = "tid-1" ∧ entryBuiltEx.ProcessStart = formatRFC3339 5 :=
  entries_share_traceID_and_processStart loggerEx [(6, Info, "a"), (9, Warn, "b")] rfl
    entryBuiltEx (by decide)

/-- C9: starting from an empty buffer, if the `time.Now()` instants observed
by a batch of calls are pairwise non-decreasing in call order (a
forward-moving clock), then the `Delta` fields of the buffered entries are
pairwise non-decreasing in buffer order. -/
theorem delta_monotone_in_batch (l : Logger) (calls : List (Int × level × String))
    (hempty : l.Entries = [])
    (hclock : (calls.map (fun c => c.1)).Pairwise (fun a b => a ≤ b)) :
    ((runLogs l calls).Entries.map Entry.Delta).Pairwise (fun a b => a ≤ b) := by
  rw [runLogs_closed_form, hempty]
  simp only [List.nil_append, List.map_map]
  rw [List.pairwise_map]
  rw [List.pairwise_map] at hclock
  exact hclock.imp (fun h => sub_le_sub_right h l.startTime)

/-- The concrete three-call batch used for the C9 instance. -/
def calls9 : List (Int × level × String) :=
  [(6, Info, "a"), (9, Warn, "b"), (9, Error, "c")]

theorem delta_monotone_in_batch_witness :
    loggerEx.Entries = []
    ∧ ((runLogs loggerEx calls9).Entries.map Entry.Delta).Pairwise (fun a b => a ≤ b) :=
  ⟨rfl, delta_monotone_in_batch loggerEx calls9 rfl (by decide)⟩

/-- Handler for the C5 counterexample: appends one entry, has had status 200
written to the wrapped response writer, and then panics out of
`ServeHTTP`. -/
def panicHandlerEx : Logger → HandlerRun := fun lg =>
  { logger := (lg.Log 7 Info "boom").1, status := 200, exit := .panicked }

/-- C5 counterexample: for this request the handler exits abnormally with
final observed status 200, yet the single entry flushed by the deferred
`Flush` still has status code 0 — contrary to the claim, the buffered entries
are not decorated with the final observed status on an abnormal exit (the
decoration statement sits after `next.ServeHTTP` and only the `Flush` is
deferred). -/
theorem middleware_panic_skips_decoration :
    (panicHandlerEx ((NewLogger cfgEx "tid-4" 0).WithRequest (some reqTraceEx))).exit
      = HandlerExit.panicked
    ∧ (panicHandlerEx ((NewLogger cfgEx "tid-4" 0).WithRequest (some reqTraceEx))).status = 200
    ∧ (middlewareFinal cfgEx "tid-4" 0 (some reqTraceEx) panicHandlerEx).Entries.map
        Entry.StatusCode = [0]
    ∧ (0 : Int) ≠ 200 :=
  ⟨rfl, rfl, by decide, by decide⟩

/-- C5 amended: after the wrapped handler finishes, the deferred `Flush`
always runs and leaves the buffer empty; when the handler returns normally
the buffered entries are first all decorated with the final observed response
status, but when it exits abnormally (panic) the decoration is skipped and
the entries are flushed with their prior status codes. -/
theorem middleware_decorates_on_normal_flushes_always (cfg : Config)
    (traceID : String) (now : Int) (r : Option Request)
    (handler : Logger → HandlerRun) (encode : Entry → Option String) :
    ((handler ((NewLogger cfg traceID now).WithRequest r)).exit = HandlerExit.normal →
      (middlewareFinal cfg traceID now r handler).Entries
        = (handler ((NewLogger cfg traceID now).WithRequest r)).logger.Entries.map
            (fun e =>
              { e with
                StatusCode := (handler ((NewLogger cfg traceID now).WithRequest r)).status }))
    ∧ ((handler ((NewLogger cfg traceID now).WithRequest r)).exit = HandlerExit.panicked →
      middlewareFinal cfg traceID now r handler
        = (handler ((NewLogger cfg traceID now).WithRequest r)).logger)
    ∧ (middlewareRun cfg traceID now r handler encode).1.Entries = [] := by
  refine ⟨?_, ?_, ?_⟩
  · intro hexit
    simp [middlewareFinal, hexit, Logger.DecorateEntries]
  · intro hexit
    simp [middlewareFinal, hexit]
  · cases hw : (middlewareFinal cfg traceID now r handler).writer <;>
      simp [middlewareRun, Logger.Flush, hw]

/-- Handler for the C5 amended-claim instance: appends one entry and returns
normally with observed status 200. -/
def normalHandlerEx : Logger → HandlerRun := fun lg =>
  { logger := (lg.Log 7 Info "ok").1, status := 200, exit := .normal }

theorem middleware_decorates_on_normal_flushes_always_witness :
    (middlewareFinal cfgEx "tid-5" 0 (some reqTraceEx) normalHandlerEx).Entries
      = (normalHandlerEx ((NewLogger cfgEx "tid-5" 0).WithRequest (some reqTraceEx))).logger.Entries.map
          (fun e => { e with StatusCode := 200 })
    ∧ (middlewareRun cfgEx "tid-5" 0 (some reqTraceEx) normalHandlerEx
        (fun e => some e.Message)).1.Entries = [] :=
  have h := middleware_decorates_on_normal_flushes_always cfgEx "tid-5" 0 (some reqTraceEx)
    normalHandlerEx (fun e => some e.Message)
  ⟨h.1 rfl, h.2.2⟩

end StructuredLogger
